import Mathlib

/-!
Verification development for the repository source `src/api_server.py`
(a FastAPI service exposing a `/chat` endpoint and a Telegram webhook on
top of a pluggable LLM backend).

Strings are modelled as `List Char` at the core (one element per Unicode
code point, matching Python's `str` indexing/length), with `String`
wrappers for the public operations.  Scanning functions that advance by
a variable number of characters are written with an explicit fuel
parameter equal to the input length; every step consumes at least one
character and one unit of fuel, so the fuel never runs out and the
wrapper equals the unbounded scan.  This keeps every definition
kernel-computable.
-/

namespace ApiServer

/-- Whitespace as used by Python's `str.strip` / regex `\s` on the ASCII
range (`\x0b` is vertical tab, `\x0c` form feed).  Python additionally
treats some non-Latin Unicode spaces as whitespace; none of them occur
in the program's fixed strings or in any input considered here. -/
def isPySpace (c : Char) : Bool :=
  decide (c = ' ' ∨ c = '\t' ∨ c = '\n' ∨ c = '\r' ∨ c = '\x0b' ∨ c = '\x0c')

/-- Python `s.lstrip()` on char lists: drop leading whitespace. -/
def lstrip (s : List Char) : List Char := s.dropWhile isPySpace

/-- Python `s.rstrip()` on char lists: drop trailing whitespace. -/
def rstrip (s : List Char) : List Char := (s.reverse.dropWhile isPySpace).reverse

/-- Python `s.strip()` on char lists: drop whitespace at both ends. -/
def pyStrip (s : List Char) : List Char := rstrip (lstrip s)

/-- Python `s.strip()` on `String`. -/
def pyStripS (s : String) : String := ⟨pyStrip s.data⟩

/-! ### `html.unescape` (Python standard library)

`normalize_text` starts with `s = html.unescape(s)`.  CPython implements
it as `re.sub(r"&(#[0-9]+;?|#[xX][0-9a-fA-F]+;?|[^\t\n\f <&#;]{1,32};?)",
_replace_charref, s)`.  The embedding below follows that algorithm; the
named-entity table is restricted to the basic entities (`amp`, `lt`,
`gt`, `quot`, `nbsp`), which agrees with the full HTML5 table on every
concrete input appearing in this development, and is irrelevant to the
universal statements proved here (they only use that a string without
`&` is left unchanged). -/

/-- Character class `[^\t\n\f <&#;]` of the charref regex (`\f` = `\x0c`). -/
def isNameChar (c : Char) : Bool :=
  decide (¬ (c = '\t' ∨ c = '\n' ∨ c = '\x0c' ∨ c = ' ' ∨ c = '<' ∨ c = '&' ∨ c = '#' ∨ c = ';'))

def isDecDigit (c : Char) : Bool := decide ('0' ≤ c ∧ c ≤ '9')

def isHexDigitCh (c : Char) : Bool :=
  decide (('0' ≤ c ∧ c ≤ '9') ∨ ('a' ≤ c ∧ c ≤ 'f') ∨ ('A' ≤ c ∧ c ≤ 'F'))

def decDigitVal (c : Char) : Nat := c.toNat - '0'.toNat

def hexDigitVal (c : Char) : Nat :=
  if isDecDigit c then c.toNat - '0'.toNat
  else if decide ('a' ≤ c ∧ c ≤ 'f') then c.toNat - 'a'.toNat + 10
  else c.toNat - 'A'.toNat + 10

def decVal (ds : List Char) : Nat := ds.foldl (fun a c => 10 * a + decDigitVal c) 0

def hexVal (ds : List Char) : Nat := ds.foldl (fun a c => 16 * a + hexDigitVal c) 0

/-- Named-entity table (fragment of `html.entities.html5`): each entry is
(reference body, replacement).  The HTML5 table also contains the
semicolon-free legacy forms. -/
def entityTable : List (List Char × List Char) :=
  [("amp;".data, "&".data), ("amp".data, "&".data),
   ("lt;".data, "<".data), ("lt".data, "<".data),
   ("gt;".data, ">".data), ("gt".data, ">".data),
   ("quot;".data, "\"".data), ("quot".data, "\"".data),
   ("nbsp;".data, " ".data), ("nbsp".data, " ".data)]

/-- CPython `html._invalid_charrefs`: numeric references remapped by the
WHATWG spec (codepoint of the reference, codepoint of the replacement). -/
def invalidCharrefs : List (Nat × Nat) :=
  [(0x00, 0xfffd), (0x0d, 0x0d), (0x80, 0x20ac), (0x81, 0x81),
   (0x82, 0x201a), (0x83, 0x192), (0x84, 0x201e), (0x85, 0x2026),
   (0x86, 0x2020), (0x87, 0x2021), (0x88, 0x2c6), (0x89, 0x2030),
   (0x8a, 0x160), (0x8b, 0x2039), (0x8c, 0x152), (0x8d, 0x8d),
   (0x8e, 0x17d), (0x8f, 0x8f), (0x90, 0x90), (0x91, 0x2018),
   (0x92, 0x2019), (0x93, 0x201c), (0x94, 0x201d), (0x95, 0x2022),
   (0x96, 0x2013), (0x97, 0x2014), (0x98, 0x2dc), (0x99, 0x2122),
   (0x9a, 0x161), (0x9b, 0x203a), (0x9c, 0x153), (0x9d, 0x9d),
   (0x9e, 0x17e), (0x9f, 0x178)]

/-- CPython `html._invalid_codepoints` (control characters and Unicode
noncharacters, dropped from numeric references): the ranges 0x1-0x8,
0xb, 0xe-0x1f, 0x7f-0x9f, 0xfdd0-0xfdef and the `...fffe`/`...ffff`
noncharacter of each plane. -/
def isInvalidCodepoint (n : Nat) : Bool :=
  decide ((1 ≤ n ∧ n ≤ 8) ∨ n = 0xb ∨ (0xe ≤ n ∧ n ≤ 0x1f) ∨
    (0x7f ≤ n ∧ n ≤ 0x9f) ∨ (0xfdd0 ≤ n ∧ n ≤ 0xfdef) ∨
    n % 0x10000 = 0xfffe ∨ n % 0x10000 = 0xffff)

/-- Replacement text of a numeric character reference
(`html._replace_charref`, `#...` branches). -/
def charrefNum (n : Nat) : List Char :=
  match invalidCharrefs.lookup n with
  | some m => [Char.ofNat m]
  | none =>
    if decide ((0xd800 ≤ n ∧ n ≤ 0xdfff) ∨ 0x10ffff < n) then [Char.ofNat 0xfffd]
    else if isInvalidCodepoint n then []
    else [Char.ofNat n]

/-- Longest-matching-name fallback of `html._replace_charref`: for
`x = g.length - 1` down to `2`, the first prefix `g.take x` found in the
table is replaced, keeping the tail verbatim; otherwise the reference
text is kept with its `&`. -/
def entNameFallback (g : List Char) : Nat → List Char
  | 0 => '&' :: g
  | 1 => '&' :: g
  | x + 2 =>
    match entityTable.lookup (g.take (x + 2)) with
    | some r => r ++ g.drop (x + 2)
    | none => entNameFallback g (x + 1)

/-- Replacement text of a named character reference `g`
(`html._replace_charref`, name branch). -/
def entReplace (g : List Char) : List Char :=
  match entityTable.lookup g with
  | some r => r
  | none => entNameFallback g (g.length - 1)

/-- Try to match a character reference body right after a `&`, following
the charref regex.  Returns the replacement text and the number of
characters consumed (not counting the `&` itself). -/
def matchCharref (rest : List Char) : Option (List Char × Nat) :=
  match rest with
  | [] => none
  | c :: after =>
    if c = '#' then
      let ds := after.takeWhile isDecDigit
      if ds ≠ [] then
        match after.drop ds.length with
        | ';' :: _ => some (charrefNum (decVal ds), 1 + ds.length + 1)
        | _ => some (charrefNum (decVal ds), 1 + ds.length)
      else
        match after with
        | x :: after2 =>
          if x = 'x' ∨ x = 'X' then
            let hs := after2.takeWhile isHexDigitCh
            if hs ≠ [] then
              match after2.drop hs.length with
              | ';' :: _ => some (charrefNum (hexVal hs), 2 + hs.length + 1)
              | _ => some (charrefNum (hexVal hs), 2 + hs.length)
            else none
          else none
        | [] => none
    else
      let nameChars := (rest.takeWhile isNameChar).take 32
      if nameChars = [] then none
      else
        match rest.drop nameChars.length with
        | ';' :: _ => some (entReplace (nameChars ++ [';']), nameChars.length + 1)
        | _ => some (entReplace nameChars, nameChars.length)

/-- One left-to-right pass of `html.unescape`: at each `&` try a charref
match; replacements are emitted verbatim (the regex does not rescan
them).  Fuel is the number of scan steps; each step consumes at least
one input character, so `s.length` fuel always suffices. -/
def unescapeFuel : Nat → List Char → List Char
  | 0, s => s
  | _, [] => []
  | f + 1, c :: rest =>
    if c = '&' then
      match matchCharref rest with
      | some (rep, n) => rep ++ unescapeFuel f (rest.drop n)
      | none => '&' :: unescapeFuel f rest
    else c :: unescapeFuel f rest

/-- `html.unescape` on char lists. -/
def unescape (s : List Char) : List Char := unescapeFuel s.length s

/-! ### The `<br>`-to-newline and tag-stripping substitutions -/

/-- Match `re.compile(r"<\s*br\s*/?\s*>", re.IGNORECASE)` at the head of
the input; on success return the remainder after the `>`. -/
def matchBr (s : List Char) : Option (List Char) :=
  match s with
  | [] => none
  | c :: rest =>
    if c = '<' then
      match rest.dropWhile isPySpace with
      | b :: r2 =>
        if b = 'b' ∨ b = 'B' then
          match r2 with
          | r :: r3 =>
            if r = 'r' ∨ r = 'R' then
              let r4 := r3.dropWhile isPySpace
              let r5 := match r4 with
                | '/' :: t => t
                | _ => r4
              match r5.dropWhile isPySpace with
              | '>' :: rest2 => some rest2
              | _ => none
            else none
          | [] => none
        else none
      | [] => none
    else none

/-- `re.sub(r"<\s*br\s*/?\s*>", "\n", s, flags=re.IGNORECASE)`:
left-to-right scan, each match replaced by one newline.  Fuel as in
`unescapeFuel` (a match consumes at least two characters). -/
def brSubFuel : Nat → List Char → List Char
  | 0, s => s
  | _, [] => []
  | f + 1, c :: rest =>
    match matchBr (c :: rest) with
    | some rest2 => '\n' :: brSubFuel f rest2
    | none => c :: brSubFuel f rest

def brSub (s : List Char) : List Char := brSubFuel s.length s

/-- Match `re.compile(r"</?[^>]+>")` at the head of the input; on
success return the remainder after the `>`.  The optional `/` is part of
`[^>]+`'s character class, so the match succeeds exactly when a `>`
follows with at least one non-`>` character in between, consuming up to
the first such `>`. -/
def matchTag (s : List Char) : Option (List Char) :=
  match s with
  | [] => none
  | c :: rest =>
    if c = '<' then
      let body := rest.takeWhile (fun d => decide (¬ d = '>'))
      match body, rest.drop body.length with
      | _ :: _, '>' :: rest2 => some rest2
      | _, _ => none
    else none

/-- `re.sub(r"</?[^>]+>", "", s)`: every tag-shaped span is deleted. -/
def stripTagsFuel : Nat → List Char → List Char
  | 0, s => s
  | _, [] => []
  | f + 1, c :: rest =>
    match matchTag (c :: rest) with
    | some rest2 => stripTagsFuel f rest2
    | none => c :: stripTagsFuel f rest

def stripTags (s : List Char) : List Char := stripTagsFuel s.length s

/-- `s.replace("\r\n", "\n")`: non-overlapping left-to-right pair
replacement. -/
def replaceCRLF : List Char → List Char
  | [] => []
  | [c] => [c]
  | c :: d :: rest =>
    if c = '\r' ∧ d = '\n' then '\n' :: replaceCRLF rest
    else c :: replaceCRLF (d :: rest)

/-- `s.replace("\r", "\n")`: characterwise replacement. -/
def replaceCR (s : List Char) : List Char :=
  s.map (fun c => if c = '\r' then '\n' else c)

/-- `re.sub(r"\n{3,}", "\n\n", s)`: the accumulator counts the newlines
already emitted in the current run (capped at 2); a maximal run of `n ≥ 3`
newlines thus emits exactly two, shorter runs are kept. -/
def collapseNlAux : Nat → List Char → List Char
  | _, [] => []
  | k, c :: rest =>
    if c = '\n' then
      if 2 ≤ k then collapseNlAux k rest
      else '\n' :: collapseNlAux (k + 1) rest
    else c :: collapseNlAux 0 rest

def collapseNl (s : List Char) : List Char := collapseNlAux 0 s

/-- `nlOk k s`: scanning `s` right after `k` consecutive newlines, no
point of `s` reaches a third consecutive newline — i.e. `k`-prefixed `s`
contains no run of 3 newlines.  This is the invariant `collapseNlAux`
establishes and under which it is the identity. -/
def nlOk : Nat → List Char → Bool
  | _, [] => true
  | k, c :: rest =>
    if c = '\n' then decide (k < 2) && nlOk (k + 1) rest
    else nlOk 0 rest

/-- `normalize_text` (src/api_server.py lines 65-75): unescape entities,
turn `<br>` variants into newlines, strip remaining tags, normalize line
endings, collapse 3+ newlines to 2, trim. -/
def normalize_text (s : List Char) : List Char :=
  if s = [] then []
  else pyStrip (collapseNl (replaceCR (replaceCRLF (stripTags (brSub (unescape s))))))

/-- `normalize_text` on `String`. -/
def normalizeTextS (s : String) : String := ⟨normalize_text s.data⟩

/-! ### Outbound messaging (lines 78-93) -/

/-- The trailing ellipsis marker appended by `clamp_message`. -/
def truncMarker : String := "\n\n...(truncated)"

/-- `clamp_message` (lines 78-82): `if len(s) <= limit: return s`;
otherwise `s[: limit - 30].rstrip() + "\n\n...(truncated)"`.  The
default limit is 3500 ("Telegram message limit ~4096. Keep safe."). -/
def clamp_message (s : String) (limit : Nat := 3500) : String :=
  if s.data.length ≤ limit then s
  else ⟨rstrip (s.data.take (limit - 30)) ++ truncMarker.data⟩

/-- `tg_send` (lines 85-93), reduced to its observable payload: with no
bot token nothing is sent (`none`); otherwise the delivered plain-text
body is `clamp_message(normalize_text(text))`. -/
def tg_send (token : String) (text : String) : Option String :=
  if token = "" then none
  else some (clamp_message (normalizeTextS text))

/-! ### Model catalogue and per-user model preference (lines 32-107) -/

/-- `DEFAULT_MODEL = os.getenv("DEFAULT_MODEL", "DeepSeek-V3")` with the
environment unset. -/
def DEFAULT_MODEL : String := "DeepSeek-V3"

/-- `AVAILABLE_MODELS` (lines 34-53). -/
def AVAILABLE_MODELS : List String :=
  ["DeepSeek-V1", "DeepSeek-V2", "DeepSeek-V2.5", "DeepSeek-V3",
   "DeepSeek-V3-0324", "DeepSeek-V3.1", "DeepSeek-V3.2", "DeepSeek-R1",
   "DeepSeek-R1-0528", "DeepSeek-R1-Distill", "DeepSeek-Prover-V1",
   "DeepSeek-Prover-V1.5", "DeepSeek-Prover-V2", "DeepSeek-VL",
   "DeepSeek-Coder", "DeepSeek-Coder-V2", "DeepSeek-Coder-6.7B-base",
   "DeepSeek-Coder-6.7B-instruct"]

/-- The `user_model` dict (`telegram_user_id -> model`), modelled as an
association list; Python dict keys are unique and iteration order is
insertion order, which the operations below preserve. -/
def UserModelMap : Type := List (Int × String)

/-- `user_model.get(tg_user_id)`. -/
def umGet : List (Int × String) → Int → Option String
  | [], _ => none
  | (k, v) :: rest, id => if k = id then some v else umGet rest id

/-- `user_model[tg_user_id] = model`: overwrite in place or append. -/
def umSet : List (Int × String) → Int → String → List (Int × String)
  | [], id, v => [(id, v)]
  | (k, w) :: rest, id, v =>
    if k = id then (id, v) :: rest else (k, w) :: umSet rest id v

/-- `user_model.pop(tg_user_id, None)`: remove the key (dict keys are
unique, so dropping every pair with the key is the same operation). -/
def umPop (m : List (Int × String)) (id : Int) : List (Int × String) :=
  m.filter (fun p => decide (¬ p.1 = id))

/-- Python truthiness of an `Optional[str]` followed by `or d`:
`None or d = d`, `"" or d = d`, otherwise the string itself. -/
def pyOrOpt (o : Option String) (d : String) : String :=
  match o with
  | none => d
  | some s => if s = "" then d else s

/-- `x or d` for strings. -/
def pyOrS (s d : String) : String := if s = "" then d else s

/-- `get_user_current_model` (lines 96-100). -/
def get_user_current_model (m : List (Int × String)) (id : Int) : String :=
  let u := pyOrOpt (umGet m id) DEFAULT_MODEL
  if u ∈ AVAILABLE_MODELS then u else DEFAULT_MODEL

/-- `set_user_current_model` (lines 103-107); returns the `bool` result
together with the updated map (the Python function mutates the global). -/
def set_user_current_model (m : List (Int × String)) (id : Int)
    (model : String) : Bool × List (Int × String) :=
  if model ∈ AVAILABLE_MODELS then (true, umSet m id model) else (false, m)

/-- The `/reset_model` command branch of `telegram_webhook`
(lines 332-335): `user_model.pop(tg_user_id, None)`. -/
def reset_user_model (m : List (Int × String)) (id : Int) : List (Int × String) :=
  umPop m id

/-! ### `call_llm` (lines 113-169)

The environment-derived routing configuration and the network are made
explicit.  A transport outcome `.error ()` stands for any exception in
the corresponding `try` block (connection error, timeout, or a non-2xx
status raised by `raise_for_status`); `.ok` carries the parsed JSON
fields the code reads.  `call_llm` performs at most one POST to the
internal router and at most one POST to the OpenAI-compatible endpoint;
the result records the number of POSTs actually performed. -/

structure LlmConfig where
  /-- `INTERNAL_ROUTER_URL` (env, default `""`). -/
  internalRouterUrl : String
  /-- `LLM_BASE_URL` (env, default `""`). -/
  llmBaseUrl : String
  /-- `LLM_API_KEY` (env, default `""`). -/
  llmApiKey : String
  /-- `LLM_MODEL_FALLBACK` (env, default `"deepseek-chat"`). -/
  llmModelFallback : String
deriving DecidableEq

/-- Fields of the internal router's JSON reply that the code reads:
`data.get("answer")` and `data.get("response")`. -/
structure RouterJson where
  answer : Option String
  response : Option String
deriving DecidableEq

/-- The OpenAI-compatible reply, reduced to the value of
`data.get("choices", [{}])[0].get("message", {}).get("content", "")`
(the chained defaults make it a total string). -/
structure OpenAiJson where
  content : String
deriving DecidableEq

structure Transport where
  router : Except Unit RouterJson
  openai : Except Unit OpenAiJson

structure CallResult where
  answer : String
  httpPosts : Nat
deriving DecidableEq

/-- `call_llm`, empty-prompt reply (line 123). -/
def emptyPromptMsg : String := "اكتب النص أو السؤال الذي تريدني أن أتعامل معه."

/-- `call_llm`, reply when an extracted answer normalizes to `""`. -/
def noReplyMsg : String := "لم أستطع توليد رد."

/-- `call_llm`, reply when the OpenAI-compatible attempt raised (line 166). -/
def openaiErrMsg : String := "حدث خطأ أثناء الاتصال بالنموذج. تأكد من LLM_BASE_URL و LLM_API_KEY."

/-- `call_llm`, echo fallback when no provider is configured (line 169). -/
def echoFallbackMsg (prompt : String) : String :=
  "✅ استلمت رسالتك: " ++ prompt ++
    "\n\n(لم يتم ضبط مزود LLM بعد. ضع INTERNAL_ROUTER_URL أو LLM_BASE_URL/LLM_API_KEY)"

/-- Continuation of `call_llm` after the internal-router branch fell
through (source lines 141-169); `posts` is the number of HTTP POSTs made
so far. -/
def call_llm_after_router (cfg : LlmConfig) (t : Transport) (prompt : String)
    (posts : Nat) : CallResult :=
  if cfg.llmBaseUrl ≠ "" ∧ cfg.llmApiKey ≠ "" then
    match t.openai with
    | .ok data => ⟨pyOrS (normalizeTextS data.content) noReplyMsg, posts + 1⟩
    | .error _ => ⟨openaiErrMsg, posts + 1⟩
  else ⟨echoFallbackMsg prompt, posts⟩

/-- `call_llm` (lines 113-169).  Priority: internal router, then
OpenAI-compatible endpoint, then echo fallback.  A router failure is
swallowed (`except Exception: pass`) and falls through; an
OpenAI-endpoint failure returns `openaiErrMsg`. -/
def call_llm (cfg : LlmConfig) (t : Transport) (model_name prompt : String) :
    CallResult :=
  let prompt := pyStripS prompt
  if prompt = "" then ⟨emptyPromptMsg, 0⟩
  else if cfg.internalRouterUrl ≠ "" then
    match t.router with
    | .ok data =>
      let ans := pyOrOpt data.answer (pyOrOpt data.response "")
      ⟨pyOrS (normalizeTextS ans) noReplyMsg, 1⟩
    | .error _ => call_llm_after_router cfg t prompt 1
  else call_llm_after_router cfg t prompt 0

/-! ### The `/chat` endpoint (lines 175-274) -/

/-- `ChatRequest` (pydantic): `model` defaults to `DEFAULT_MODEL`,
`question` to `""` (a missing field takes the default). -/
structure ChatRequest where
  model : String := DEFAULT_MODEL
  question : String := ""
deriving DecidableEq

structure ChatResponse where
  model : String
  question : String
  answer : String
deriving DecidableEq

/-- Model resolution of `chat` (lines 268-270):
`model = req.model.strip() if req.model else DEFAULT_MODEL`, then
unrecognized names fall back to `DEFAULT_MODEL`. -/
def resolve_model (m : String) : String :=
  let m1 := if m = "" then DEFAULT_MODEL else pyStripS m
  if m1 ∈ AVAILABLE_MODELS then m1 else DEFAULT_MODEL

/-- `chat` (lines 266-274); returns the `ChatResponse` together with the
number of outbound HTTP POSTs made while serving the request. -/
def chat (cfg : LlmConfig) (t : Transport) (req : ChatRequest) :
    ChatResponse × Nat :=
  let model := resolve_model req.model
  let r := call_llm cfg t model req.question
  let answer := normalizeTextS r.answer
  (⟨model, req.question, answer⟩, r.httpPosts)

/-- The `/chat` HTTP handler as mounted by FastAPI: the route function
takes only the parsed body — it declares no header dependency, so the
request headers are never consulted anywhere on the path. -/
def chatHandler (_headers : List (String × String)) (cfg : LlmConfig)
    (t : Transport) (req : ChatRequest) : ChatResponse × Nat :=
  chat cfg t req

/-! ### Challenge Solver (spec §4.1)

Modelled from the spec: the Challenge Solver component (`solve`) is
described in spec §4.1 but is not part of `src/` (the only source file,
`api_server.py`, contains no challenge-solving code).  Faithful to the
spec's words: scan the landing page for three occurrences of a fixed
call-like marker wrapping one hex-string argument; first = key, second =
IV, third = ciphertext; decode hex, decrypt with a block cipher in CBC
mode (no extra padding handling), re-encode lowercase hex.  Fewer than
three matches is a hard `ChallengeParseError` and no cipher operation is
performed.  The block cipher itself is a parameter `D` (key → ciphertext
block → plaintext block). -/

inductive SolveError where
  | challengeParse
deriving DecidableEq

instance exceptDecEq {ε α : Type} [DecidableEq ε] [DecidableEq α] :
    DecidableEq (Except ε α) := fun a b =>
  match a, b with
  | .ok x, .ok y =>
    if h : x = y then .isTrue (by rw [h]) else .isFalse (by simp [h])
  | .error x, .error y =>
    if h : x = y then .isTrue (by rw [h]) else .isFalse (by simp [h])
  | .ok _, .error _ => .isFalse (by simp)
  | .error _, .ok _ => .isFalse (by simp)

/-- `l` begins with `p`. -/
def startsWithL : List Char → List Char → Bool
  | [], _ => true
  | _ :: _, [] => false
  | p :: ps, c :: cs => p = c && startsWithL ps cs

/-- The fixed marker pattern wrapping each hex token (spec: "a call-like
token taking one hex-string argument"; the scheme's standard landing
page uses `toNumbers("…")`). -/
def challengeMarker : List Char := "toNumbers(\"".data

/-- Lowercase-hex check for the wrapped argument. -/
def isLowerHexDigit (c : Char) : Bool :=
  decide (('0' ≤ c ∧ c ≤ '9') ∨ ('a' ≤ c ∧ c ≤ 'f'))

/-- Scan the page for marker-wrapped hex tokens, left to right; each
match consumes through its closing quote.  Fuel as in the other
scanners (`s.length` always suffices). -/
def findTokensFuel : Nat → List Char → List (List Char)
  | 0, _ => []
  | _, [] => []
  | f + 1, c :: rest =>
    if startsWithL challengeMarker (c :: rest) then
      let after := (c :: rest).drop challengeMarker.length
      let hexs := after.takeWhile isLowerHexDigit
      match after.drop hexs.length with
      | '"' :: rest2 => hexs :: findTokensFuel f rest2
      | _ => c :: rest |>.tail |> findTokensFuel f
    else findTokensFuel f rest

/-- All marker-wrapped hex tokens of a landing page. -/
def findTokens (s : List Char) : List (List Char) := findTokensFuel s.length s

/-- Hex-decode to bytes; `none` on odd length (malformed token). -/
def hexDecode : List Char → Option (List Nat)
  | [] => some []
  | a :: b :: rest => (hexDecode rest).map (fun t => (16 * hexDigitVal a + hexDigitVal b) :: t)
  | [_] => none

/-- Lowercase hex encoding of a byte list. -/
def hexLowerChar (n : Nat) : Char :=
  if n < 10 then Char.ofNat ('0'.toNat + n) else Char.ofNat ('a'.toNat + n - 10)

def toLowerHex (bs : List Nat) : List Char :=
  bs.foldr (fun b acc => hexLowerChar (b / 16) :: hexLowerChar (b % 16) :: acc) []

/-- Split into 16-byte cipher blocks (fuel = list length suffices). -/
def toBlocksFuel : Nat → List Nat → List (List Nat)
  | 0, _ => []
  | _, [] => []
  | f + 1, x :: rest => (x :: rest.take 15) :: toBlocksFuel f (rest.drop 15)

def toBlocks (l : List Nat) : List (List Nat) := toBlocksFuel l.length l

def xorBytes (a b : List Nat) : List Nat := List.zipWith Nat.xor a b

/-- CBC decryption: plaintext block `i` is `D key C_i XOR C_(i-1)` with
`C_0 = IV`; no padding is stripped beyond what `D` itself produces. -/
def cbcDecrypt (D : List Nat → List Nat → List Nat) (key iv ct : List Nat) :
    List Nat :=
  let bs := toBlocks ct
  (List.zipWith (fun c p => xorBytes (D key c) p) bs (iv :: bs)).flatten

/-- Number of block-cipher invocations `cbcDecrypt` makes. -/
def cbcOps (ct : List Nat) : Nat := (toBlocks ct).length

/-- Modelled from the spec: `solve(landingPageHTML)` (spec §4.1).
Returns the cookie value (lowercase hex of the CBC decryption) together
with the number of block-cipher invocations performed. -/
def solve (D : List Nat → List Nat → List Nat) (page : List Char) :
    Except SolveError (List Char) × Nat :=
  match findTokens page with
  | kHex :: ivHex :: ctHex :: _ =>
    match hexDecode kHex, hexDecode ivHex, hexDecode ctHex with
    | some key, some iv, some ct =>
      (.ok (toLowerHex (cbcDecrypt D key iv ct)), cbcOps ct)
    | _, _, _ => (.error .challengeParse, 0)
  | _ => (.error .challengeParse, 0)

/-! ### Concrete inputs used by witnesses and counterexamples -/

/-- A valid challenge page: three marker-wrapped hex tokens. -/
def c4Page : List Char :=
  ("var a = toNumbers(\"00ff\"); var b = toNumbers(\"0a0b\"); " ++
   "var c = toNumbers(\"00112233445566778899aabbccddeeff\");").data

def c4KeyHex : List Char := "00ff".data
def c4IvHex : List Char := "0a0b".data
def c4CtHex : List Char := "00112233445566778899aabbccddeeff".data

def c4CtBytes : List Nat :=
  [0x00, 0x11, 0x22, 0x33, 0x44, 0x55, 0x66, 0x77,
   0x88, 0x99, 0xaa, 0xbb, 0xcc, 0xdd, 0xee, 0xff]

/-- A landing page with only two tokens (fewer than three matches). -/
def c4BadPage : List Char := "toNumbers(\"aa\") toNumbers(\"bb\")".data

/-- A 3501-character message (over the 3500-character clamp limit). -/
def bigMessage : String := ⟨List.replicate 3501 'a'⟩

/-! # Theorems -/

/-! ### Shared helper lemmas -/

theorem umGet_umSet (m : List (Int × String)) (id : Int) (v : String) :
    umGet (umSet m id v) id = some v := by
  induction m with
  | nil => simp [umSet, umGet]
  | cons p rest ih =>
    obtain ⟨k, w⟩ := p
    by_cases h : k = id <;> simp [umSet, umGet, h, ih]

theorem umGet_umPop (m : List (Int × String)) (id : Int) :
    umGet (umPop m id) id = none := by
  induction m with
  | nil => simp [umPop, umGet]
  | cons p rest ih =>
    obtain ⟨k, w⟩ := p
    by_cases h : k = id <;>
      simp [umPop, List.filter_cons, h, umGet] at ih ⊢ <;> exact ih

theorem get_user_default_of_absent (m : List (Int × String)) (id : Int)
    (h : umGet m id = none) : get_user_current_model m id = DEFAULT_MODEL := by
  simp [get_user_current_model, h, pyOrOpt]

theorem resolve_model_mem (m : String) : resolve_model m ∈ AVAILABLE_MODELS := by
  by_cases h : (if m = "" then DEFAULT_MODEL else pyStripS m) ∈ AVAILABLE_MODELS
  · simpa [resolve_model, h] using h
  · simp only [resolve_model, h, if_false]
    decide

/-! ### Claim C5 -/

/-- Claim C5 (confirmed): applying the answer normalization
`normalize_text` to the HTML fragment
`<div class="response-content">A &amp; B<br>C</div>` yields exactly the
plain-text answer `"A & B\nC"` — the entity is decoded, the `<br>`
becomes a newline, and the surrounding tags are stripped. -/
theorem claim5_normalize_round_trip :
    normalizeTextS "<div class=\"response-content\">A &amp; B<br>C</div>" = "A & B\nC" := by
  decide

/-! ### Claim C8 -/

/-- Claim C8 (confirmed): lifecycle of the per-conversation model
preference map.  Starting from a state with no entry for `id`: the
lookup returns the configured default; a first explicit (valid)
selection creates the entry; re-selection overwrites it; explicit reset
(`/reset_model`, i.e. `user_model.pop`) removes it, after which the
lookup returns the default again. -/
theorem claim8_preference_lifecycle (m : List (Int × String)) (id : Int)
    (model model2 : String)
    (hmem : model ∈ AVAILABLE_MODELS) (hmem2 : model2 ∈ AVAILABLE_MODELS)
    (habs : umGet m id = none) :
    get_user_current_model m id = DEFAULT_MODEL ∧
    umGet (set_user_current_model m id model).2 id = some model ∧
    umGet (set_user_current_model (set_user_current_model m id model).2 id model2).2 id
      = some model2 ∧
    umGet (reset_user_model (set_user_current_model m id model).2 id) id = none ∧
    get_user_current_model (reset_user_model (set_user_current_model m id model).2 id) id
      = DEFAULT_MODEL := by
  refine ⟨get_user_default_of_absent m id habs, ?_, ?_, ?_, ?_⟩
  · simp [set_user_current_model, hmem, umGet_umSet]
  · simp [set_user_current_model, hmem, hmem2, umGet_umSet]
  · simp [set_user_current_model, hmem, reset_user_model, umGet_umPop]
  · exact get_user_default_of_absent _ id
      (by simp [set_user_current_model, hmem, reset_user_model, umGet_umPop])

/-- Witness for C8 at a concrete state: empty map, user 7, models
`DeepSeek-R1` then `DeepSeek-V2`. -/
theorem claim8_preference_lifecycle_witness :
    get_user_current_model [] 7 = DEFAULT_MODEL ∧
    umGet (set_user_current_model [] 7 "DeepSeek-R1").2 7 = some "DeepSeek-R1" ∧
    umGet (set_user_current_model (set_user_current_model [] 7 "DeepSeek-R1").2 7
      "DeepSeek-V2").2 7 = some "DeepSeek-V2" ∧
    umGet (reset_user_model (set_user_current_model [] 7 "DeepSeek-R1").2 7) 7 = none ∧
    get_user_current_model (reset_user_model
      (set_user_current_model [] 7 "DeepSeek-R1").2 7) 7 = DEFAULT_MODEL :=
  claim8_preference_lifecycle [] 7 "DeepSeek-R1" "DeepSeek-V2"
    (by decide) (by decide) (by decide)

/-! ### Claim C9 -/

/-- Claim C9 (confirmed): for every chat request the model field of the
returned result is a member of `AVAILABLE_MODELS`; a blank, unrecognized,
or missing (pydantic-defaulted) requested model is silently replaced by
the configured default model, never rejected. -/
theorem claim9_model_field_invariant :
    ∀ (cfg : LlmConfig) (t : Transport) (req : ChatRequest),
    (chat cfg t req).1.model ∈ AVAILABLE_MODELS ∧
    (req.model = "" → (chat cfg t req).1.model = DEFAULT_MODEL) ∧
    (pyStripS req.model ∉ AVAILABLE_MODELS → (chat cfg t req).1.model = DEFAULT_MODEL) ∧
    (req.model = DEFAULT_MODEL → (chat cfg t req).1.model = DEFAULT_MODEL) := by
  intro cfg t req
  have hm : (chat cfg t req).1.model = resolve_model req.model := rfl
  rw [hm]
  refine ⟨resolve_model_mem _, ?_, ?_, ?_⟩
  · intro h
    rw [h]
    decide
  · intro h
    by_cases h0 : req.model = ""
    · rw [h0]
      decide
    · simp [resolve_model, h0, h]
  · intro h
    rw [h]
    decide

/-- Witness for C9 at concrete requests: a blank model name and an
unrecognized one both resolve to the default. -/
theorem claim9_model_field_invariant_witness :
    (chat ⟨"", "", "", "deepseek-chat"⟩ ⟨.error (), .error ()⟩
      ⟨"", "q"⟩).1.model = DEFAULT_MODEL ∧
    (chat ⟨"", "", "", "deepseek-chat"⟩ ⟨.error (), .error ()⟩
      ⟨"no-such-model", "q"⟩).1.model = DEFAULT_MODEL ∧
    (chat ⟨"", "", "", "deepseek-chat"⟩ ⟨.error (), .error ()⟩
      ⟨"no-such-model", "q"⟩).1.model ∈ AVAILABLE_MODELS :=
  ⟨(claim9_model_field_invariant _ _ _).2.1 rfl,
   (claim9_model_field_invariant _ _ _).2.2.1 (by decide),
   (claim9_model_field_invariant _ _ _).1⟩

/-! ### Claim C10 -/

/-- Claim C10 (confirmed): `set_user_current_model` with a name not in
`AVAILABLE_MODELS` returns `False` and leaves the preference mapping
completely unchanged. -/
theorem claim10_invalid_set_noop (m : List (Int × String)) (id : Int)
    (model : String) (h : model ∉ AVAILABLE_MODELS) :
    set_user_current_model m id model = (false, m) := by
  simp [set_user_current_model, h]

/-- Witness for C10: setting `"bogus"` on a one-entry map fails and
leaves the map as it was. -/
theorem claim10_invalid_set_noop_witness :
    set_user_current_model [(1, "DeepSeek-V2")] 1 "bogus"
      = (false, [(1, "DeepSeek-V2")]) :=
  claim10_invalid_set_noop [(1, "DeepSeek-V2")] 1 "bogus" (by decide)

/-! ### Claim C2

The claim says `chat(question="   ")` fails with `EmptyQuestion`,
reported as a client error.  The code has no `EmptyQuestion` (or any
validation error) anywhere: `chat` always returns a 200 `ChatResponse`;
for a question that is empty after trimming, `call_llm` returns the
fixed ask-for-input message at line 123 before any network activity.
The "no outbound HTTP call" half of the claim is true. -/

/-- Counterexample to C2 as stated: at `question = "   "` the chat
operation does not fail at all — it returns a successful `ChatResponse`
whose answer is the fixed ask-for-input message (with zero outbound
POSTs), even with a router and an LLM endpoint configured and a healthy
transport. -/
theorem claim2_counterexample :
    chat ⟨"http://router.internal", "http://llm.example", "key123", "deepseek-chat"⟩
      ⟨.ok ⟨some "hello", none⟩, .ok ⟨"world"⟩⟩ ⟨"DeepSeek-V3", "   "⟩
      = (⟨"DeepSeek-V3", "   ", emptyPromptMsg⟩, 0) := by
  decide

/-- Claim C2 as amended (the nearest true statement): submitting a
question that is empty after trimming yields a successful `ChatResponse`
whose answer is the fixed ask-for-input message, and zero outbound HTTP
calls are made — `call_llm` returns before any network activity. -/
theorem claim2_empty_question (cfg : LlmConfig) (t : Transport)
    (req : ChatRequest) (h : pyStripS req.question = "") :
    chat cfg t req
      = (⟨resolve_model req.model, req.question, normalizeTextS emptyPromptMsg⟩, 0) := by
  simp [chat, call_llm, h]

/-- Witness for the amended C2 at `question = "   "`. -/
theorem claim2_empty_question_witness :
    chat ⟨"http://r", "http://b", "k", "deepseek-chat"⟩
      ⟨.ok ⟨some "hi", none⟩, .ok ⟨"w"⟩⟩ ⟨"DeepSeek-V3", "   "⟩
      = (⟨resolve_model "DeepSeek-V3", "   ", normalizeTextS emptyPromptMsg⟩, 0) :=
  claim2_empty_question _ _ _ (by decide)

/-! ### Claim C6

The claim says `chat` is guarded by an API-key header-equality check and
that failing requests run no upstream logic.  The `/chat` route of
`src/api_server.py` performs no header check of any kind: the handler's
only parameter is the parsed body, and every request proceeds to model
resolution and `call_llm`. -/

/-- Counterexample to C6 as stated: a request carrying no API key at all
(and one carrying a wrong key) is processed identically and still
reaches the upstream logic — one outbound POST is made on its behalf. -/
theorem claim6_counterexample :
    (chatHandler [] ⟨"http://r", "", "", "deepseek-chat"⟩
      ⟨.ok ⟨some "hello", none⟩, .error ()⟩ ⟨"DeepSeek-V3", "hi"⟩).2 = 1 ∧
    chatHandler [("X-API-Key", "wrong-key")] ⟨"http://r", "", "", "deepseek-chat"⟩
      ⟨.ok ⟨some "hello", none⟩, .error ()⟩ ⟨"DeepSeek-V3", "hi"⟩
      = chatHandler [] ⟨"http://r", "", "", "deepseek-chat"⟩
        ⟨.ok ⟨some "hello", none⟩, .error ()⟩ ⟨"DeepSeek-V3", "hi"⟩ := by
  exact ⟨by decide, rfl⟩

/-- Claim C6 as amended (the nearest true statement): the chat operation
performs no API-key check at all — its behavior is independent of the
request headers, and the upstream logic (`call_llm`) runs for every
request, its POST count being the response's POST count. -/
theorem claim6_no_api_key_guard :
    ∀ (h1 h2 : List (String × String)) (cfg : LlmConfig) (t : Transport)
      (req : ChatRequest),
    chatHandler h1 cfg t req = chatHandler h2 cfg t req ∧
    (chatHandler h1 cfg t req).2
      = (call_llm cfg t (resolve_model req.model) req.question).httpPosts := by
  intro h1 h2 cfg t req
  exact ⟨rfl, rfl⟩

/-! ### Claim C3

The claim says a failed submission invalidates the session and is
retried once with a fresh session, a second failure propagating as
`UpstreamUnavailable` after exactly 2 HTTP attempts and 1 session
rebuild.  `src/api_server.py` has no session state at all and never
raises to its caller: `call_llm` tries the internal router once, falls
through to the OpenAI-compatible endpoint once, and on a second failure
returns a fixed error-message string as the answer.  The "exactly 2 HTTP
attempts, never more" half of the claim is true of this fallback chain;
the session rebuild and the `UpstreamUnavailable` failure do not exist. -/

/-- Counterexample to C3 as stated: with both providers configured and a
transport failing both attempts, `call_llm` performs exactly 2 HTTP
POSTs and then returns normally with the fixed error-message answer —
nothing is raised, and no session is invalidated or rebuilt (no session
exists in the code). -/
theorem claim3_counterexample :
    call_llm ⟨"http://router.internal", "http://llm.example", "key123", "deepseek-chat"⟩
      ⟨.error (), .error ()⟩ "DeepSeek-V3" "hello"
      = ⟨openaiErrMsg, 2⟩ := by
  decide

/-- Claim C3 as amended (the nearest true statement): `call_llm` never
performs more than 2 HTTP POSTs; and when both providers are configured,
the question is non-empty, and both attempts fail, it performs exactly 2
POSTs and returns the fixed error-message answer instead of raising. -/
theorem claim3_retry_bound :
    ∀ (cfg : LlmConfig) (t : Transport) (m p : String),
    (call_llm cfg t m p).httpPosts ≤ 2 ∧
    (cfg.internalRouterUrl ≠ "" → cfg.llmBaseUrl ≠ "" → cfg.llmApiKey ≠ "" →
     t.router = .error () → t.openai = .error () → pyStripS p ≠ "" →
     call_llm cfg t m p = ⟨openaiErrMsg, 2⟩) := by
  intro cfg t m p
  constructor
  · by_cases h0 : pyStripS p = ""
    · simp [call_llm, h0]
    · by_cases h1 : cfg.internalRouterUrl ≠ ""
      · rcases hr : t.router with e | data
        · by_cases h2 : cfg.llmBaseUrl ≠ "" ∧ cfg.llmApiKey ≠ ""
          · rcases ho : t.openai with e2 | d2 <;>
              simp [call_llm, call_llm_after_router, h0, h1, h2, hr, ho]
          · simp [call_llm, call_llm_after_router, h0, h1, h2, hr]
        · simp [call_llm, h0, h1, hr]
      · by_cases h2 : cfg.llmBaseUrl ≠ "" ∧ cfg.llmApiKey ≠ ""
        · rcases ho : t.openai with e2 | d2 <;>
            simp [call_llm, call_llm_after_router, h0, h1, h2, ho]
        · simp [call_llm, call_llm_after_router, h0, h1, h2]
  · intro h1 h2 h3 hr ho h0
    simp [call_llm, call_llm_after_router, h0, h1, h2, h3, hr, ho]

/-- Witness for C3 applying the bound at a concrete double-failure run. -/
theorem claim3_retry_bound_witness :
    (call_llm ⟨"http://r", "http://b", "k", "deepseek-chat"⟩
      ⟨.error (), .error ()⟩ "DeepSeek-V3" "hi").httpPosts ≤ 2 ∧
    call_llm ⟨"http://r", "http://b", "k", "deepseek-chat"⟩
      ⟨.error (), .error ()⟩ "DeepSeek-V3" "hi" = ⟨openaiErrMsg, 2⟩ :=
  ⟨(claim3_retry_bound _ _ _ _).1,
   (claim3_retry_bound _ _ _ _).2 (by decide) (by decide) (by decide)
     rfl rfl (by decide)⟩

/-! ### Claim C7 -/

theorem dropWhile_length_le (p : Char → Bool) (l : List Char) :
    (l.dropWhile p).length ≤ l.length := by
  induction l with
  | nil => simp
  | cons c rest ih =>
    by_cases h : p c <;> simp [List.dropWhile_cons, h] <;> omega

theorem rstrip_length_le (l : List Char) : (rstrip l).length ≤ l.length := by
  have h := dropWhile_length_le isPySpace l.reverse
  simpa [rstrip] using h

theorem clamp_message_length_le (s : String) :
    (clamp_message s).data.length ≤ 4000 := by
  by_cases h : s.data.length ≤ 3500
  · simp only [clamp_message, h, if_true]
    omega
  · simp only [clamp_message, h, if_false]
    have h1 : (rstrip (s.data.take (3500 - 30))).length ≤ 3500 - 30 := by
      refine le_trans (rstrip_length_le _) ?_
      simp [List.length_take]
    have h2 : truncMarker.data.length = 16 := by decide
    simp only [List.length_append]
    omega

/-- Claim C7 (confirmed): every outbound plain-text message is no longer
than roughly 4000 characters (in fact at most 3500): a message at or
under the 3500-character limit is delivered by `clamp_message`
unchanged, and a longer one is truncated and given the trailing ellipsis
marker `"\n\n...(truncated)"`; `tg_send`'s delivered payload is always
the clamped text. -/
theorem claim7_outbound_length :
    (∀ s : String, (clamp_message s).data.length ≤ 4000 ∧
      (s.data.length ≤ 3500 → clamp_message s = s) ∧
      (3500 < s.data.length →
        ∃ pre, (clamp_message s).data = pre ++ truncMarker.data)) ∧
    (∀ (token text : String) (p : String), tg_send token text = some p →
      p = clamp_message (normalizeTextS text) ∧ p.data.length ≤ 4000) := by
  constructor
  · intro s
    refine ⟨clamp_message_length_le s, ?_, ?_⟩
    · intro h
      unfold clamp_message
      exact if_pos h
    · intro h
      have h0 : ¬ s.data.length ≤ 3500 := by omega
      simp only [clamp_message, h0, if_false]
      exact ⟨rstrip (s.data.take (3500 - 30)), rfl⟩
  · intro token text p h
    by_cases h0 : token = ""
    · simp [tg_send, h0] at h
    · simp only [tg_send, h0, if_false, Option.some.injEq] at h
      subst h
      exact ⟨rfl, clamp_message_length_le _⟩

theorem bigMessage_over_limit : 3500 < bigMessage.data.length := by
  show 3500 < (List.replicate 3501 'a').length
  rw [List.length_replicate]
  omega

/-- Witness for C7: a 3501-character message exceeds the limit and gets
the trailing marker; the delivered payload of a `tg_send` is its clamped
text and is within bounds. -/
theorem claim7_outbound_length_witness :
    (3500 < bigMessage.data.length ∧
      ∃ pre, (clamp_message bigMessage).data = pre ++ truncMarker.data) ∧
    (clamp_message (normalizeTextS "hello")
        = clamp_message (normalizeTextS "hello") ∧
      (clamp_message (normalizeTextS "hello")).data.length ≤ 4000) :=
  ⟨⟨bigMessage_over_limit,
    (claim7_outbound_length.1 bigMessage).2.2 bigMessage_over_limit⟩,
   claim7_outbound_length.2 "token" "hello" _ rfl⟩

/-! ### Claim C4 -/

/-- Claim C4 (confirmed; modelled from the spec, the Challenge Solver is
not part of `src/`): for every challenge page whose token scan yields
three well-formed (hex-decodable) tokens, `solve` returns the lowercase
hex encoding of the CBC decryption of the third token under the first
(key) and second (IV), for any block cipher `D`; and for every page with
fewer than three matches, `solve` fails with `ChallengeParseError` and
performs no cipher operation. -/
theorem claim4_solve_spec :
    ∀ (D : List Nat → List Nat → List Nat) (page kHex ivHex ctHex : List Char)
      (restTk : List (List Char)) (key iv ct : List Nat),
    (findTokens page = kHex :: ivHex :: ctHex :: restTk →
     hexDecode kHex = some key → hexDecode ivHex = some iv →
     hexDecode ctHex = some ct →
     solve D page = (.ok (toLowerHex (cbcDecrypt D key iv ct)), cbcOps ct)) ∧
    ((findTokens page).length < 3 →
     solve D page = (.error .challengeParse, 0)) := by
  intro D page kHex ivHex ctHex restTk key iv ct
  constructor
  · intro h1 h2 h3 h4
    simp [solve, h1, h2, h3, h4]
  · intro h
    unfold solve
    rcases hm : findTokens page with _ | ⟨a, _ | ⟨b, _ | ⟨c, rest⟩⟩⟩
    · rfl
    · rfl
    · rfl
    · rw [hm] at h
      simp at h
      omega

/-- Witness for C4: a concrete page with three hex tokens is solved to
the CBC value (with one cipher invocation for the one 16-byte block),
and a page with only two tokens is a parse failure with zero cipher
invocations. -/
theorem claim4_solve_spec_witness :
    (findTokens c4Page = [c4KeyHex, c4IvHex, c4CtHex] ∧
     solve (fun _ b => b) c4Page
       = (.ok (toLowerHex (cbcDecrypt (fun _ b => b) [0x00, 0xff] [0x0a, 0x0b] c4CtBytes)),
          cbcOps c4CtBytes)) ∧
    ((findTokens c4BadPage).length < 3 ∧
     solve (fun _ b => b) c4BadPage = (.error .challengeParse, 0)) :=
  ⟨⟨by decide,
    (claim4_solve_spec (fun _ b => b) c4Page c4KeyHex c4IvHex c4CtHex [] _ _ _).1
      (by decide) (by decide) (by decide) (by decide)⟩,
   ⟨by decide,
    (claim4_solve_spec (fun _ b => b) c4BadPage [] [] [] [] [] [] []).2 (by decide)⟩⟩

/-! ### Claim C1

The claim says `normalize(normalize(x)) = normalize(x)` for every input
`x`.  That fails on the code: `html.unescape` runs once per application,
so text that decodes to a fresh entity or tag is decoded further by a
second pass (e.g. `"&amp;lt;"` normalizes to `"&lt;"`, which normalizes
to `"<"`).  The nearest true statement: whenever the *normalized* text
contains no `&` and no `<` — in particular whenever entity decoding and
tag stripping have reached a fixpoint, which holds for ordinary answer
markup — re-applying `normalize_text` is a no-op.  The lemmas below
show each pipeline stage is the identity on such output. -/

theorem unescapeFuel_id : ∀ (f : Nat) (s : List Char), '&' ∉ s →
    unescapeFuel f s = s := by
  intro f
  induction f with
  | zero => intro s _; cases s <;> rfl
  | succ f ih =>
    intro s h
    match s with
    | [] => rfl
    | c :: rest =>
      simp only [List.mem_cons, not_or] at h
      obtain ⟨h1, h2⟩ := h
      have hc : ¬ c = '&' := fun e => h1 e.symm
      simp only [unescapeFuel, hc, if_false]
      rw [ih rest h2]

theorem unescape_id (s : List Char) (h : '&' ∉ s) : unescape s = s :=
  unescapeFuel_id s.length s h

theorem matchBr_none (c : Char) (rest : List Char) (h : ¬ c = '<') :
    matchBr (c :: rest) = none := by
  simp [matchBr, h]

theorem matchTag_none (c : Char) (rest : List Char) (h : ¬ c = '<') :
    matchTag (c :: rest) = none := by
  simp [matchTag, h]

theorem brSubFuel_id : ∀ (f : Nat) (s : List Char), '<' ∉ s →
    brSubFuel f s = s := by
  intro f
  induction f with
  | zero => intro s _; cases s <;> rfl
  | succ f ih =>
    intro s h
    match s with
    | [] => rfl
    | c :: rest =>
      simp only [List.mem_cons, not_or] at h
      obtain ⟨h1, h2⟩ := h
      have hc : ¬ c = '<' := fun e => h1 e.symm
      simp only [brSubFuel, matchBr_none c rest hc]
      rw [ih rest h2]

theorem brSub_id (s : List Char) (h : '<' ∉ s) : brSub s = s :=
  brSubFuel_id s.length s h

theorem stripTagsFuel_id : ∀ (f : Nat) (s : List Char), '<' ∉ s →
    stripTagsFuel f s = s := by
  intro f
  induction f with
  | zero => intro s _; cases s <;> rfl
  | succ f ih =>
    intro s h
    match s with
    | [] => rfl
    | c :: rest =>
      simp only [List.mem_cons, not_or] at h
      obtain ⟨h1, h2⟩ := h
      have hc : ¬ c = '<' := fun e => h1 e.symm
      simp only [stripTagsFuel, matchTag_none c rest hc]
      rw [ih rest h2]

theorem stripTags_id (s : List Char) (h : '<' ∉ s) : stripTags s = s :=
  stripTagsFuel_id s.length s h

theorem replaceCRLF_id : ∀ (s : List Char), '\r' ∉ s → replaceCRLF s = s := by
  intro s
  induction s using replaceCRLF.induct with
  | case1 => intro _; rfl
  | case2 c => intro _; rfl
  | case3 c d rest hp ih =>
    intro h
    simp only [List.mem_cons, not_or] at h
    exact absurd hp.1.symm h.1
  | case4 c d rest hp ih =>
    intro h
    simp only [List.mem_cons, not_or] at h
    have e : replaceCRLF (c :: d :: rest) = c :: replaceCRLF (d :: rest) := by
      simp [replaceCRLF, hp]
    rw [e, ih (by simp only [List.mem_cons, not_or]; exact ⟨h.2.1, h.2.2⟩)]

theorem replaceCR_id (s : List Char) (h : '\r' ∉ s) : replaceCR s = s := by
  induction s with
  | nil => rfl
  | cons c rest ih =>
    simp only [List.mem_cons, not_or] at h
    have hc : ¬ c = '\r' := fun e => h.1 e.symm
    simp only [replaceCR, List.map_cons, hc, if_false]
    have := ih (fun hm => h.2 hm)
    simp only [replaceCR] at this
    rw [this]

theorem replaceCR_no_cr (s : List Char) : '\r' ∉ replaceCR s := by
  intro hm
  obtain ⟨a, _, hfa⟩ := List.mem_map.1 hm
  by_cases ha : a = '\r'
  · simp [ha] at hfa
  · simp [ha] at hfa

theorem nlOk_mono : ∀ (s : List Char) (k k' : Nat), k' ≤ k →
    nlOk k s = true → nlOk k' s = true := by
  intro s
  induction s with
  | nil => intro k k' _ _; rfl
  | cons c rest ih =>
    intro k k' hle h
    by_cases hc : c = '\n'
    · simp only [nlOk, hc, if_true, Bool.and_eq_true, decide_eq_true_eq] at h ⊢
      exact ⟨by omega, ih (k + 1) (k' + 1) (by omega) h.2⟩
    · simp only [nlOk, hc, if_false] at h ⊢
      exact h

theorem nlOk_append_left : ∀ (a b : List Char) (k : Nat),
    nlOk k (a ++ b) = true → nlOk k a = true := by
  intro a
  induction a with
  | nil => intro b k _; rfl
  | cons c rest ih =>
    intro b k h
    by_cases hc : c = '\n'
    · simp only [List.cons_append, nlOk, hc, if_true, Bool.and_eq_true,
        decide_eq_true_eq] at h ⊢
      exact ⟨h.1, ih b (k + 1) h.2⟩
    · simp only [List.cons_append, nlOk, hc, if_false] at h ⊢
      exact ih b 0 h

theorem nlOk_append_right : ∀ (a b : List Char) (k : Nat),
    nlOk k (a ++ b) = true → nlOk 0 b = true := by
  intro a
  induction a with
  | nil => intro b k h; exact nlOk_mono b k 0 (by omega) h
  | cons c rest ih =>
    intro b k h
    by_cases hc : c = '\n'
    · simp only [List.cons_append, nlOk, hc, if_true, Bool.and_eq_true,
        decide_eq_true_eq] at h
      exact ih b (k + 1) h.2
    · simp only [List.cons_append, nlOk, hc, if_false] at h
      exact ih b 0 h

theorem collapseNlAux_nlOk : ∀ (s : List Char) (k : Nat), k ≤ 2 →
    nlOk k (collapseNlAux k s) = true := by
  intro s
  induction s with
  | nil => intro k _; rfl
  | cons c rest ih =>
    intro k hk
    by_cases hc : c = '\n'
    · by_cases h2 : 2 ≤ k
      · simp only [collapseNlAux, hc, if_true, h2]
        exact ih k hk
      · simp only [collapseNlAux, hc, if_true, h2, if_false, nlOk,
          Bool.and_eq_true, decide_eq_true_eq]
        exact ⟨by omega, ih (k + 1) (by omega)⟩
    · simp only [collapseNlAux, hc, if_false, nlOk]
      exact ih 0 (by omega)

theorem collapseNlAux_id : ∀ (s : List Char) (k : Nat),
    nlOk k s = true → collapseNlAux k s = s := by
  intro s
  induction s with
  | nil => intro k _; rfl
  | cons c rest ih =>
    intro k h
    by_cases hc : c = '\n'
    · simp only [nlOk, hc, if_true, Bool.and_eq_true, decide_eq_true_eq] at h
      have h2 : ¬ 2 ≤ k := by omega
      simp only [collapseNlAux, hc, if_true, h2, if_false]
      rw [ih (k + 1) h.2]
    · simp only [nlOk, hc, if_false] at h
      simp only [collapseNlAux, hc, if_false]
      rw [ih 0 h]

theorem collapseNlAux_mem : ∀ (s : List Char) (k : Nat) (c : Char),
    c ∈ collapseNlAux k s → c ∈ s := by
  intro s
  induction s with
  | nil => intro k c h; exact absurd h (by simp [collapseNlAux])
  | cons d rest ih =>
    intro k c h
    by_cases hd : d = '\n'
    · by_cases h2 : 2 ≤ k
      · simp only [collapseNlAux, hd, if_true, h2] at h
        exact List.mem_cons_of_mem _ (ih k c h)
      · simp only [collapseNlAux, hd, if_true, h2, if_false, List.mem_cons] at h
        rcases h with h | h
        · exact h ▸ (hd ▸ List.mem_cons_self d rest)
        · exact List.mem_cons_of_mem _ (ih (k + 1) c h)
    · simp only [collapseNlAux, hd, if_false, List.mem_cons] at h
      rcases h with h | h
      · exact h ▸ List.mem_cons_self d rest
      · exact List.mem_cons_of_mem _ (ih 0 c h)

theorem lstrip_decomp (s : List Char) : ∃ a, s = a ++ lstrip s :=
  ⟨s.takeWhile isPySpace, (List.takeWhile_append_dropWhile isPySpace s).symm⟩

theorem rstrip_decomp (u : List Char) : ∃ b, u = rstrip u ++ b := by
  refine ⟨(u.reverse.takeWhile isPySpace).reverse, ?_⟩
  have h : u.reverse.takeWhile isPySpace ++ u.reverse.dropWhile isPySpace
      = u.reverse := List.takeWhile_append_dropWhile isPySpace u.reverse
  calc u = u.reverse.reverse := (List.reverse_reverse u).symm
  _ = (u.reverse.takeWhile isPySpace ++ u.reverse.dropWhile isPySpace).reverse := by
      rw [h]
  _ = rstrip u ++ (u.reverse.takeWhile isPySpace).reverse := by
      rw [List.reverse_append]
      rfl

theorem pyStrip_decomp (s : List Char) : ∃ a b, s = a ++ pyStrip s ++ b := by
  obtain ⟨a, ha⟩ := lstrip_decomp s
  obtain ⟨b, hb⟩ := rstrip_decomp (lstrip s)
  refine ⟨a, b, ?_⟩
  rw [List.append_assoc]
  calc s = a ++ lstrip s := ha
  _ = a ++ (pyStrip s ++ b) := congrArg (a ++ ·) hb

theorem mem_of_pyStrip (s : List Char) (c : Char) (h : c ∈ pyStrip s) :
    c ∈ s := by
  obtain ⟨a, b, hd⟩ := pyStrip_decomp s
  have : c ∈ a ++ pyStrip s ++ b := by
    simp only [List.mem_append]
    exact Or.inl (Or.inr h)
  rw [← hd] at this
  exact this

theorem dropWhile_head_false (p : Char → Bool) :
    ∀ (l : List Char) (c : Char) (t : List Char),
    l.dropWhile p = c :: t → p c = false := by
  intro l
  induction l with
  | nil => intro c t h; simp at h
  | cons d rest ih =>
    intro c t h
    by_cases hd : p d
    · rw [List.dropWhile_cons, if_pos hd] at h
      exact ih c t h
    · rw [List.dropWhile_cons, if_neg hd] at h
      injection h with h1 _
      subst h1
      simpa using hd

theorem dropWhile_dropWhile (p : Char → Bool) (l : List Char) :
    List.dropWhile p (List.dropWhile p l) = List.dropWhile p l := by
  rcases h : List.dropWhile p l with _ | ⟨c, t⟩
  · rfl
  · have hc := dropWhile_head_false p l c t h
    rw [List.dropWhile_cons, if_neg (by simp [hc])]

theorem rstrip_rstrip (u : List Char) : rstrip (rstrip u) = rstrip u := by
  unfold rstrip
  rw [List.reverse_reverse, dropWhile_dropWhile]

theorem lstrip_rstrip_lstrip (s : List Char) :
    lstrip (rstrip (lstrip s)) = rstrip (lstrip s) := by
  rcases h : rstrip (lstrip s) with _ | ⟨c, t⟩
  · rfl
  · obtain ⟨b, hb⟩ := rstrip_decomp (lstrip s)
    rw [h] at hb
    have hb2 : List.dropWhile isPySpace s = c :: (t ++ b) := by
      simpa using hb
    have hc := dropWhile_head_false isPySpace s c (t ++ b) hb2
    show List.dropWhile isPySpace (c :: t) = c :: t
    rw [List.dropWhile_cons, if_neg (by simp [hc])]

theorem pyStrip_idem (s : List Char) : pyStrip (pyStrip s) = pyStrip s := by
  show rstrip (lstrip (rstrip (lstrip s))) = rstrip (lstrip s)
  rw [lstrip_rstrip_lstrip, rstrip_rstrip]

/-- The normalization pipeline on a nonempty input. -/
theorem normalize_text_eq (x : List Char) (hx : ¬ x = []) :
    normalize_text x
      = pyStrip (collapseNl (replaceCR (replaceCRLF (stripTags (brSub (unescape x)))))) := by
  simp only [normalize_text, hx, if_false]

/-- Core of the amended C1: on any input whose normalized form contains
no `&` and no `<`, a second `normalize_text` is the identity. -/
theorem normalize_text_fix (x : List Char)
    (h1 : '&' ∉ normalize_text x) (h2 : '<' ∉ normalize_text x) :
    normalize_text (normalize_text x) = normalize_text x := by
  by_cases hx : x = []
  · subst hx
    rfl
  · have hyx := normalize_text_eq x hx
    set y := normalize_text x with hy
    by_cases hy0 : y = []
    · rw [hy0]
      rfl
    · have hnr : '\r' ∉ y := by
        intro hc
        rw [hyx] at hc
        exact replaceCR_no_cr _ (collapseNlAux_mem _ 0 _ (mem_of_pyStrip _ _ hc))
      have hok : nlOk 0 y = true := by
        rw [hyx]
        obtain ⟨a, b, hd⟩ :=
          pyStrip_decomp (collapseNl (replaceCR (replaceCRLF (stripTags (brSub (unescape x))))))
        have h0 := collapseNlAux_nlOk
          (replaceCR (replaceCRLF (stripTags (brSub (unescape x))))) 0 (by omega)
        rw [show collapseNlAux 0 (replaceCR (replaceCRLF (stripTags (brSub (unescape x)))))
            = collapseNl (replaceCR (replaceCRLF (stripTags (brSub (unescape x))))) from rfl,
          hd] at h0
        exact nlOk_append_right a _ 0 (nlOk_append_left _ b 0 h0)
      calc normalize_text y
          = pyStrip (collapseNl (replaceCR (replaceCRLF (stripTags (brSub (unescape y)))))) :=
            normalize_text_eq y hy0
      _ = y := by
            rw [unescape_id y h1, brSub_id y h2, stripTags_id y h2,
              replaceCRLF_id y hnr, replaceCR_id y hnr,
              show collapseNl y = y from collapseNlAux_id y 0 hok,
              hyx]
            exact pyStrip_idem _

/-- Counterexample to C1 as stated: normalization is not idempotent.
At `x = "&amp;lt;"` one application yields `"&lt;"` (the `&amp;` decodes
to a bare `&`), and a second application decodes the now-complete
`&lt;` to `"<"`. -/
theorem claim1_counterexample :
    ¬ normalizeTextS (normalizeTextS "&amp;lt;") = normalizeTextS "&amp;lt;" := by
  decide

/-- Claim C1 as amended (the nearest true statement): `normalize_text`
is idempotent on every input whose normalized form contains no `&` and
no `<` — i.e. whenever one pass leaves no entity or tag material behind
(the ordinary case for answer markup), re-applying it is a no-op.  Full
idempotence fails because `html.unescape` runs exactly once per
application (see the counterexample). -/
theorem claim1_normalize_idem (x : String)
    (h1 : '&' ∉ (normalizeTextS x).data) (h2 : '<' ∉ (normalizeTextS x).data) :
    normalizeTextS (normalizeTextS x) = normalizeTextS x := by
  show String.mk (normalize_text (normalize_text x.data)) = String.mk (normalize_text x.data)
  exact congrArg String.mk (normalize_text_fix x.data h1 h2)

/-- Witness for the amended C1: the normalized form of
`"<b>hi</b>\n\n\n\n<br>there"` is `"hi\n\nthere"`, which contains no `&`
or `<`, and re-normalizing it changes nothing. -/
theorem claim1_normalize_idem_witness :
    ('&' ∉ (normalizeTextS "<b>hi</b>\n\n\n\n<br>there").data) ∧
    ('<' ∉ (normalizeTextS "<b>hi</b>\n\n\n\n<br>there").data) ∧
    normalizeTextS (normalizeTextS "<b>hi</b>\n\n\n\n<br>there")
      = normalizeTextS "<b>hi</b>\n\n\n\n<br>there" :=
  ⟨by decide, by decide, claim1_normalize_idem _ (by decide) (by decide)⟩

